import Mathlib

/-!
Verification of the progress-bar state core in `src/js/app.js`.

The application keeps a single data field `progress`, initialised to 0,
and two mutator methods:

  advance: function() { this.progress = Math.min(this.progress + 1, 100); }
  retreat: function() { this.progress = Math.max(this.progress - 1, 0);  }

Neither method declares a parameter; in JavaScript a call such as
`advance(5)` silently ignores the extra argument.  We embed `progress`
as an integer and the two methods as pure state transformers.
-/

namespace ProgressBar

/-- `data` in `app.js`: the initial value of the `progress` field. -/
def initialProgress : Int := 0

/-- `advance` from `app.js`: `this.progress = Math.min(this.progress + 1, 100)`. -/
def advance (p : Int) : Int := min (p + 1) 100

/-- `retreat` from `app.js`: `this.progress = Math.max(this.progress - 1, 0)`. -/
def retreat (p : Int) : Int := max (p - 1) 0

/-- A JavaScript call `advance(step)`: the function declares no parameter,
so the argument is ignored and the body runs unchanged. -/
def advanceCall (p : Int) (_step : Int) : Int := advance p

/-- A JavaScript call `retreat(step)`: the argument is ignored. -/
def retreatCall (p : Int) (_step : Int) : Int := retreat p

/-- The spec's description of `advance(step)`: `progress' = min(progress + step, 100)`.
Kept separate from the source embedding to compare the two. -/
def advanceSpec (p step : Int) : Int := min (p + step) 100

/-- The spec's description of `retreat(step)`: `progress' = max(progress - step, 0)`. -/
def retreatSpec (p step : Int) : Int := max (p - step) 0

/-- The two sanctioned mutations of the `methods` block. -/
inductive Op where
  | advanceOp : Op
  | retreatOp : Op

/-- Apply one method call to the current `progress` value. -/
def applyOp (p : Int) : Op → Int
  | Op.advanceOp => advance p
  | Op.retreatOp => retreat p

/-- Run a finite sequence of method calls from the initial state. -/
def run (ops : List Op) : Int := ops.foldl applyOp initialProgress

/-- One method call preserves the range invariant. -/
lemma applyOp_mem (p : Int) (o : Op) (h0 : 0 ≤ p) (h1 : p ≤ 100) :
    0 ≤ applyOp p o ∧ applyOp p o ≤ 100 := by
  cases o <;> simp [applyOp, advance, retreat] <;> omega

/-- A fold of method calls preserves the range invariant. -/
lemma foldl_applyOp_mem (ops : List Op) :
    ∀ p : Int, 0 ≤ p → p ≤ 100 →
      0 ≤ ops.foldl applyOp p ∧ ops.foldl applyOp p ≤ 100 := by
  induction ops with
  | nil => intro p h0 h1; exact ⟨h0, h1⟩
  | cons o rest ih =>
    intro p h0 h1
    have h := applyOp_mem p o h0 h1
    exact ih (applyOp p o) h.1 h.2

/-- Repeated `advance` at the upper boundary stays there. -/
lemma advance_iterate_top (n : ℕ) : advance^[n] 100 = 100 := by
  induction n with
  | zero => rfl
  | succ k ih => rw [Function.iterate_succ_apply, show advance 100 = 100 from rfl, ih]

/-- Repeated `retreat` at the lower boundary stays there. -/
lemma retreat_iterate_bot (n : ℕ) : retreat^[n] 0 = 0 := by
  induction n with
  | zero => rfl
  | succ k ih => rw [Function.iterate_succ_apply, show retreat 0 = 0 from rfl, ih]

/-- Closed form of iterated `advance` below the cap. -/
lemma advance_iterate_eq (n : ℕ) :
    ∀ p : Int, p ≤ 100 → advance^[n] p = min (p + n) 100 := by
  induction n with
  | zero => intro p hp; simp; omega
  | succ k ih =>
    intro p hp
    rw [Function.iterate_succ_apply, ih (advance p) (by simp [advance])]
    simp only [advance]
    push_cast
    omega

/-- Closed form of iterated `retreat` above the floor. -/
lemma retreat_iterate_eq (n : ℕ) :
    ∀ p : Int, 0 ≤ p → retreat^[n] p = max (p - n) 0 := by
  induction n with
  | zero => intro p hp; simp; omega
  | succ k ih =>
    intro p hp
    rw [Function.iterate_succ_apply, ih (retreat p) (by simp [retreat])]
    simp only [retreat]
    push_cast
    omega

end ProgressBar

namespace ProgressBar

/-- C1 counterexample: calling `advance(5)` from `progress = 0` yields 1, not
`min(0 + 5, 100) = 5`, because the method ignores its argument. -/
theorem C1_counterexample : ¬ (advanceCall 0 5 = min ((0 : Int) + 5) 100) := by
  decide

/-- C1 (amended): for every initial `progress` in [0,100] and every
non-negative `step`, calling `advance(step)` ignores the argument and sets
progress to `min(progress + 1, 100)`, and the result is in [0,100]. -/
theorem C1_advance_amended (p step : Int) (h0 : 0 ≤ p) (h1 : p ≤ 100)
    (_hs : 0 ≤ step) :
    advanceCall p step = min (p + 1) 100 ∧
      0 ≤ advanceCall p step ∧ advanceCall p step ≤ 100 := by
  refine ⟨rfl, ?_, ?_⟩ <;> (simp only [advanceCall, advance]; omega)

/-- C1 witness: the amended theorem at `progress = 40`, `step = 7`. -/
theorem C1_advance_amended_witness :
    advanceCall 40 7 = min ((40 : Int) + 1) 100 ∧
      0 ≤ advanceCall 40 7 ∧ advanceCall 40 7 ≤ 100 :=
  C1_advance_amended 40 7 (by decide) (by decide) (by decide)

/-- C2 counterexample: calling `retreat(5)` from `progress = 100` yields 99,
not `max(100 - 5, 0) = 95`, because the method ignores its argument. -/
theorem C2_counterexample : ¬ (retreatCall 100 5 = max ((100 : Int) - 5) 0) := by
  decide

/-- C2 (amended): for every initial `progress` in [0,100] and every
non-negative `step`, calling `retreat(step)` ignores the argument and sets
progress to `max(progress - 1, 0)`, and the result is in [0,100]. -/
theorem C2_retreat_amended (p step : Int) (h0 : 0 ≤ p) (h1 : p ≤ 100)
    (_hs : 0 ≤ step) :
    retreatCall p step = max (p - 1) 0 ∧
      0 ≤ retreatCall p step ∧ retreatCall p step ≤ 100 := by
  refine ⟨rfl, ?_, ?_⟩ <;> (simp only [retreatCall, retreat]; omega)

/-- C2 witness: the amended theorem at `progress = 40`, `step = 7`. -/
theorem C2_retreat_amended_witness :
    retreatCall 40 7 = max ((40 : Int) - 1) 0 ∧
      0 ≤ retreatCall 40 7 ∧ retreatCall 40 7 ≤ 100 :=
  C2_retreat_amended 40 7 (by decide) (by decide) (by decide)

/-- C3: the state starts at `progress = 0`, and every state reachable by a
finite sequence of `advance` and `retreat` calls satisfies
`0 ≤ progress ≤ 100`. -/
theorem C3_invariant (ops : List Op) :
    initialProgress = 0 ∧ 0 ≤ run ops ∧ run ops ≤ 100 :=
  ⟨rfl, foldl_applyOp_mem ops initialProgress (by decide) (by decide)⟩

/-- C4 counterexample: from `progress = 0`, the call `advance(1000)` yields 1,
not 100, because the argument is ignored. -/
theorem C4_counterexample : ¬ (advanceCall 0 1000 = 100) := by
  decide

/-- C4 (amended): from `progress = 0`, a single call `advance(1000)` sets
progress to 1 — the argument is ignored and progress moves by exactly 1. -/
theorem C4_advance1000_amended : advanceCall 0 1000 = 1 := by
  decide

/-- C5: the methods accept no step argument — any call to `advance`, with or
without an argument, maps `p` to `min(p + 1, 100)`, and any call to `retreat`
maps `p` to `max(p - 1, 0)`; the spec's step-sensitive behaviour
(`advanceSpec`, `retreatSpec`) is not what the code computes. -/
theorem C5_no_step_argument (p step : Int) :
    advanceCall p step = min (p + 1) 100 ∧
      retreatCall p step = max (p - 1) 0 ∧
      ¬ (∀ q s : Int, advanceCall q s = advanceSpec q s) := by
  refine ⟨rfl, rfl, fun h => ?_⟩
  have := h 0 5
  simp [advanceCall, advance, advanceSpec] at this

/-- C6: the boundaries absorb: any number of `advance` calls from
`progress = 100` leaves 100, and any number of `retreat` calls from
`progress = 0` leaves 0. -/
theorem C6_absorbing_boundaries (n : ℕ) :
    advance^[n] 100 = 100 ∧ retreat^[n] 0 = 0 :=
  ⟨advance_iterate_top n, retreat_iterate_bot n⟩

/-- C7: 150 `advance` calls from `progress = 0` give 100 (not 150), and 150
`retreat` calls from `progress = 100` give 0. -/
theorem C7_saturation_150 :
    advance^[150] 0 = 100 ∧ retreat^[150] 100 = 0 := by
  rw [advance_iterate_eq 150 0 (by decide), retreat_iterate_eq 150 100 (by decide)]
  decide

/-- C8: from `progress = 50`, `advance()` then `retreat()` returns to 50. -/
theorem C8_roundtrip_50 : retreat (advance 50) = 50 := by
  decide

/-- C9 counterexample: at `progress = 0`, `advance` then `retreat` yields 0
while `retreat` then `advance` yields 1 — composition is not
order-independent at the boundary. -/
theorem C9_counterexample :
    ¬ (∀ p : Int, 0 ≤ p → p ≤ 100 → retreat (advance p) = advance (retreat p)) := by
  intro h
  have := h 0 (by decide) (by decide)
  simp [advance, retreat] at this

/-- C9 (amended): away from the boundaries — for every `progress` in [1,99] —
`advance()` then `retreat()` yields the same result as `retreat()` then
`advance()` (both return the starting value). -/
theorem C9_order_independent_interior (p : Int) (h0 : 1 ≤ p) (h1 : p ≤ 99) :
    retreat (advance p) = advance (retreat p) := by
  simp [advance, retreat]
  omega

/-- C9 witness: the amended theorem at `progress = 50`. -/
theorem C9_order_independent_interior_witness :
    retreat (advance 50) = advance (retreat 50) :=
  C9_order_independent_interior 50 (by decide) (by decide)

/-- C10: `advance` and `retreat` are total — for every progress value and
every argument, each call produces a result (there is no error branch). -/
theorem C10_total (p step : Int) :
    (∃ q : Int, advanceCall p step = q) ∧ (∃ r : Int, retreatCall p step = r) :=
  ⟨⟨advanceCall p step, rfl⟩, ⟨retreatCall p step, rfl⟩⟩

end ProgressBar
